import Mathlib

/-!
Verification of the PropLedger Pro finance engine
(`src/services/financeEngine.ts`) against its specification.

The engine is embedded shallowly:
* JavaScript numbers are modelled as exact rationals;
* a calendar date is a record of year, 0-based month (as in JS
  `Date.getMonth()`), and day of month; a date-valued string field that
  may fail to parse (JS `new Date` returning an Invalid Date) is
  modelled as an `Option Date`, `none` standing for the unparseable case;
* the implicit "now" of the engine is an injected `Clock` holding the
  current year and month (used for the ledger horizon) and the current
  timestamp on a linear time scale (used for the overdue comparison);
  `timeOf` embeds midnight of a calendar date into that scale,
  order-isomorphically to the JS epoch-milliseconds timestamp.
-/

namespace PropLedger

/-- Property type enumeration from `src/types.ts` (`PropertyType`). -/
inductive PropertyType where
  | residential
  | commercial
  | industrial
  | personal
deriving DecidableEq

/-- Payment type enumeration from `src/types.ts` (`PaymentType`). -/
inductive PaymentType where
  | rent
  | deposit
  | expense
  | equity
  | lateFee
deriving DecidableEq

/-- Tenant status from `src/types.ts` (`'active' | 'past'`). -/
inductive TenantStatus where
  | active
  | past
deriving DecidableEq

/-- Installment status from `src/types.ts`
(`'paid' | 'partial' | 'overdue' | 'pending'`); the source's second
status is named `partPaid` here. -/
inductive InstStatus where
  | paid
  | partPaid
  | overdue
  | pending
deriving DecidableEq

/-- A calendar date: year, 0-based month (as JS `getMonth`), day of month. -/
structure Date where
  year : Nat
  month : Nat
  day : Nat
deriving DecidableEq

/-- Index of a date's calendar month on the absolute month axis. -/
def monthIdx (d : Date) : Nat := d.year * 12 + d.month

/-- Strictly monotone embedding of calendar dates into a day axis
(days are at most 31, so base 32 keeps the lexicographic order);
order-isomorphic to the JS timestamp of the date's local midnight. -/
def dayNumber (d : Date) : Nat := monthIdx d * 32 + d.day

/-- The timestamp of a date's midnight on the engine's time scale. -/
def timeOf (d : Date) : ℚ := (dayNumber d : ℚ)

/-- The injected "now": current year and 0-based month (JS
`now.getFullYear()` / `now.getMonth()`), and the current instant
`time` on the linear time scale (JS `now.getTime()`, which may fall
strictly between two midnights). -/
structure Clock where
  year : Nat
  month : Nat
  time : ℚ

/-- JS `new Date(year, month + 1, 0).getDate()` leap-year rule. -/
def isLeapYear (y : Nat) : Bool :=
  y % 4 == 0 && (y % 100 != 0 || y % 400 == 0)

/-- Number of days of 0-based month `m` of year `y`, as computed by
`new Date(year, month + 1, 0).getDate()` in the source. -/
def daysInMonth (y m : Nat) : Nat :=
  if m = 1 then (if isLeapYear y then 29 else 28)
  else if m = 3 ∨ m = 5 ∨ m = 8 ∨ m = 10 then 30
  else 31

/-- JS `String(n).padStart(2, '0')` for the month component. -/
def pad2 (n : Nat) : String :=
  if n < 10 then "0" ++ toString n else toString n

/-- Source function `getMonthKey`: `YYYY-MM` for year `y` and 0-based
month `m`. -/
def monthKeyStr (y m : Nat) : String :=
  toString y ++ "-" ++ pad2 (m + 1)

/-- A payment record (`Payment` in `src/types.ts`).  Fields the engine
functions under verification never read (`method`, `note`, `monthKey`,
`expenseCategory`) are omitted. -/
structure Payment where
  id : String
  tenantId : Option String
  propertyId : String
  amount : ℚ
  date : Date
  type : PaymentType
deriving DecidableEq

/-- A tenant record (`Tenant` in `src/types.ts`; `email` omitted).
`leaseStart` is `none` when the stored string does not parse to a
date (JS Invalid Date); `leaseEnd` is `none` when absent. -/
structure Tenant where
  id : String
  propertyId : String
  name : String
  rentAmount : ℚ
  rentDueDay : Nat
  leaseStart : Option Date
  leaseEnd : Option Date
  status : TenantStatus
deriving DecidableEq

/-- A property record (`Property` in `src/types.ts`; presentation-only
fields `name`, `address`, `image` and the stored-but-unread
`monthlyAmortization` are omitted).  `currentMarketValue = none`
models the absent field. -/
structure Property where
  id : String
  type : PropertyType
  purchasePrice : ℚ
  purchaseDate : Date
  downPayment : ℚ
  currentMarketValue : Option ℚ
deriving DecidableEq

/-- One month's rent obligation (`RentInstallment` in `src/types.ts`). -/
structure RentInstallment where
  monthKey : String
  dueDate : Date
  amountDue : ℚ
  amountPaid : ℚ
  status : InstStatus
  tenantName : String
  propertyId : String
deriving DecidableEq

/-- The tenant's rent-payment pool: `payments.filter(p => p.tenantId
=== tenant.id && p.type === PaymentType.RENT).reduce((sum, p) => sum +
p.amount, 0)`.  The source sorts the filtered list ascending by date
before summing; the sort cannot change the sum and is elided. -/
def rentTotal (t : Tenant) (ps : List Payment) : ℚ :=
  (ps.filter (fun p => p.tenantId == some t.id && p.type == PaymentType.rent)).foldl
    (fun s p => s + p.amount) 0

/-- The installment pushed for absolute month `idx` inside the
generation loop of `generateLedger`: due date is `rentDueDay` clamped
to the month's length, `amountDue` the tenant's `rentAmount`,
`amountPaid` zero, status initially `pending`. -/
def mkInstallment (t : Tenant) (idx : Nat) : RentInstallment :=
  let y := idx / 12
  let m := idx % 12
  let day := min t.rentDueDay (daysInMonth y m)
  { monthKey := monthKeyStr y m
    dueDate := ⟨y, m, day⟩
    amountDue := t.rentAmount
    amountPaid := 0
    status := InstStatus.pending
    tenantName := t.name
    propertyId := t.propertyId }

/-- The allocation loop of `generateLedger`: walk the chronological
ledger, break as soon as the pool is ≤ 0, otherwise apply
`min(amountDue, pool)` to the installment and decrement the pool. -/
def applyPool : ℚ → List RentInstallment → List RentInstallment
  | _, [] => []
  | pool, inst :: rest =>
    if pool ≤ 0 then inst :: rest
    else
      let a := min inst.amountDue pool
      { inst with amountPaid := inst.amountPaid + a } :: applyPool (pool - a) rest

/-- The status-derivation pass of `generateLedger` (`ledger.forEach`):
`paid` when `amountPaid >= amountDue`, else `partial` when
`amountPaid > 0`, else `overdue` when `todayTime > dueTime` or the
tenant is `past`, else `pending`. -/
def setStatus (st : TenantStatus) (tm : ℚ) (inst : RentInstallment) : RentInstallment :=
  if inst.amountDue ≤ inst.amountPaid then { inst with status := InstStatus.paid }
  else if 0 < inst.amountPaid then { inst with status := InstStatus.partPaid }
  else if timeOf inst.dueDate < tm ∨ st = TenantStatus.past then
    { inst with status := InstStatus.overdue }
  else { inst with status := InstStatus.pending }

/-- The `endPointer` month of `generateLedger`: the first day of
`leaseEnd`'s month for a past tenant with a lease end
(`new Date(leaseEnd.getFullYear(), leaseEnd.getMonth(), 1)`),
otherwise the first day of the month after the current one
(`new Date(now.getFullYear(), now.getMonth() + 1, 1)`). -/
def horizonIdx (clk : Clock) (t : Tenant) : Nat :=
  match t.status, t.leaseEnd with
  | TenantStatus.past, some le => monthIdx le
  | _, _ => clk.year * 12 + clk.month + 1

/-- The chronological ledger skeleton produced by the generation loop
of `generateLedger`: one installment per month from the `leaseStart`
month while `currentPointer <= endPointer` (both pointers sit on the
first of a month, so the comparison is a comparison of month
indices). -/
def monthsOf (clk : Clock) (t : Tenant) (s : Date) : List RentInstallment :=
  (List.range' (monthIdx s) (horizonIdx clk t + 1 - monthIdx s)).map (mkInstallment t)

/-- The ledger of `generateLedger` in chronological (oldest-first)
order, before the final `reverse`: skeleton generation, FIFO pool
application, then status derivation.  When `leaseStart` does not parse,
every JS date comparison against the Invalid Date is false, the
generation loop never runs, and the ledger is empty. -/
def ledgerChron (clk : Clock) (t : Tenant) (ps : List Payment) : List RentInstallment :=
  match t.leaseStart with
  | none => []
  | some s =>
    (applyPool (rentTotal t ps) (monthsOf clk t s)).map (setStatus t.status clk.time)

/-- Source function `generateLedger` of `src/services/financeEngine.ts`: the
chronological ledger returned reversed (newest month first,
`return ledger.reverse()`). -/
def generateLedger (clk : Clock) (t : Tenant) (ps : List Payment) : List RentInstallment :=
  (ledgerChron clk t ps).reverse

/-- Result record of `calculateMoveOutFinancials`. -/
structure MoveOutFinancials where
  depositHeld : ℚ
  unpaidRent : ℚ
  netRefundable : ℚ
deriving DecidableEq

/-- Source function `calculateMoveOutFinancials`: deposits held, raw
ledger shortfall `sum(amountDue - amountPaid)`, and their difference. -/
def calculateMoveOutFinancials (clk : Clock) (t : Tenant) (ps : List Payment) :
    MoveOutFinancials :=
  let deposits :=
    (ps.filter (fun p => p.tenantId == some t.id && p.type == PaymentType.deposit)).foldl
      (fun s p => s + p.amount) 0
  let ledger := generateLedger clk t ps
  let unpaid := ledger.foldl (fun s row => s + (row.amountDue - row.amountPaid)) 0
  { depositHeld := deposits
    unpaidRent := unpaid
    netRefundable := deposits - unpaid }

/-- Result record of `calculateMetrics`. -/
structure Metrics where
  totalRevenue : ℚ
  netIncome : ℚ
  occupancyRate : ℚ
  outstandingRent : ℚ
deriving DecidableEq

/-- Source function `calculateMetrics`: portfolio revenue and expenses,
outstanding rent over active tenants' ledgers, and occupancy rate
(all active tenants over non-personal properties). -/
def calculateMetrics (clk : Clock) (properties : List Property) (tenants : List Tenant)
    (payments : List Payment) : Metrics :=
  let totalRevenue :=
    (payments.filter (fun p =>
      p.type == PaymentType.rent || p.type == PaymentType.deposit ||
        p.type == PaymentType.lateFee)).foldl (fun s p => s + p.amount) 0
  let totalExpenses :=
    (payments.filter (fun p => p.type == PaymentType.expense)).foldl
      (fun s p => s + p.amount) 0
  let totalOutstanding := tenants.foldl (fun acc t =>
    if t.status == TenantStatus.active then
      acc + (generateLedger clk t payments).foldl (fun a l =>
        if l.status == InstStatus.overdue || l.status == InstStatus.partPaid then
          a + (l.amountDue - l.amountPaid)
        else a) 0
    else acc) 0
  let rentalProperties := properties.filter (fun p => p.type != PropertyType.personal)
  let activeTenants := (tenants.filter (fun t => t.status == TenantStatus.active)).length
  let occupancyRate :=
    if 0 < rentalProperties.length then
      ((activeTenants : ℚ) / (rentalProperties.length : ℚ)) * 100
    else 0
  { totalRevenue := totalRevenue
    netIncome := totalRevenue - totalExpenses
    occupancyRate := occupancyRate
    outstandingRent := totalOutstanding }

/-- Result record of `calculatePropertyFinancials`. -/
structure PropertyFinancials where
  isPersonal : Bool
  totalEquityPaid : ℚ
  remainingBalance : ℚ
  percentPaid : ℚ
  isFullyPaid : Bool
  netIncome : ℚ
  roi : ℚ
  capRate : ℚ
  valuationDelta : ℚ
  currentVal : ℚ
deriving DecidableEq

/-- The Equity payment sum of `calculatePropertyFinancials`: payments of
this property with `type = Equity`, summed. -/
def equityTotal (property : Property) (payments : List Payment) : ℚ :=
  ((payments.filter (fun p => p.propertyId == property.id)).filter
      (fun p => p.type == PaymentType.equity)).foldl (fun s p => s + p.amount) 0

/-- Source function `calculatePropertyFinancials`.  Here `(downPayment || 0)`
is the identity on a numeric `downPayment`; a falsy
`currentMarketValue` (absent or zero) falls back to `purchasePrice`. -/
def calculatePropertyFinancials (clk : Clock) (property : Property)
    (payments : List Payment) : PropertyFinancials :=
  let isPersonal := property.type == PropertyType.personal
  let propPayments := payments.filter (fun p => p.propertyId == property.id)
  let totalEquityPaid := property.downPayment + equityTotal property payments
  let remainingBalance := max 0 (property.purchasePrice - totalEquityPaid)
  let rawPercent :=
    if 0 < property.purchasePrice then totalEquityPaid / property.purchasePrice * 100
    else 0
  let percentPaid := min 100 rawPercent
  let isFullyPaid := decide ((100 : ℚ) ≤ percentPaid)
  let currentVal :=
    match property.currentMarketValue with
    | some v => if v = 0 then property.purchasePrice else v
    | none => property.purchasePrice
  let valuationDelta := currentVal - property.purchasePrice
  let totalRevenue :=
    (propPayments.filter (fun p =>
      p.type == PaymentType.rent || p.type == PaymentType.deposit ||
        p.type == PaymentType.lateFee)).foldl (fun s p => s + p.amount) 0
  let totalExpenses :=
    (propPayments.filter (fun p => p.type == PaymentType.expense)).foldl
      (fun s p => s + p.amount) 0
  let netIncome := totalRevenue - totalExpenses
  let roi :=
    if isPersonal then
      if 0 < property.purchasePrice then
        (currentVal - property.purchasePrice) / property.purchasePrice * 100
      else 0
    else
      if 0 < totalEquityPaid then netIncome / totalEquityPaid * 100 else 0
  let capRate :=
    if isPersonal then 0
    else
      let monthsOwned : Int :=
        max 1 (((clk.year : Int) - (property.purchaseDate.year : Int)) * 12 +
          ((clk.month : Int) - (property.purchaseDate.month : Int)))
      let annualizedNOI := netIncome / (monthsOwned : ℚ) * 12
      if 0 < property.purchasePrice then annualizedNOI / property.purchasePrice * 100
      else 0
  { isPersonal := isPersonal
    totalEquityPaid := totalEquityPaid
    remainingBalance := remainingBalance
    percentPaid := percentPaid
    isFullyPaid := isFullyPaid
    netIncome := netIncome
    roi := roi
    capRate := capRate
    valuationDelta := valuationDelta
    currentVal := currentVal }

/-- Sum of `amountPaid` over a ledger. -/
def sumPaid (l : List RentInstallment) : ℚ :=
  (l.map RentInstallment.amountPaid).sum

/-- Sum of `amountDue` over a ledger. -/
def sumDue (l : List RentInstallment) : ℚ :=
  (l.map RentInstallment.amountDue).sum

/-- Concrete clock for the scenarios: January 10, 2024, midnight. -/
def exClock : Clock := { year := 2024, month := 0, time := timeOf ⟨2024, 0, 10⟩ }

/-- The spec's scenario tenant: rent 10000 due on day 5, lease starting
2024-01-01, active. -/
def exTenant : Tenant :=
  { id := "t1", propertyId := "p1", name := "Alice", rentAmount := 10000,
    rentDueDay := 5, leaseStart := some ⟨2024, 0, 1⟩, leaseEnd := none,
    status := TenantStatus.active }

/-- The spec's scenario payment: one Rent payment of 15000 on 2024-01-05. -/
def exPayment : Payment :=
  { id := "pay1", tenantId := some "t1", propertyId := "p1", amount := 15000,
    date := ⟨2024, 0, 5⟩, type := PaymentType.rent }

/-- A Rent payment of 20000 covering both generated months of
`exTenant`'s ledger at `exClock`. -/
def exPayFull : Payment :=
  { id := "pay2", tenantId := some "t1", propertyId := "p1", amount := 20000,
    date := ⟨2024, 0, 6⟩, type := PaymentType.rent }

/-- The same 15000 of rent as `exPayment`, split into two payments on
different dates. -/
def exPaySplitA : Payment :=
  { id := "pay3", tenantId := some "t1", propertyId := "p1", amount := 9000,
    date := ⟨2024, 0, 3⟩, type := PaymentType.rent }

/-- Second half of the split payment pair. -/
def exPaySplitB : Payment :=
  { id := "pay4", tenantId := some "t1", propertyId := "p1", amount := 6000,
    date := ⟨2024, 1, 2⟩, type := PaymentType.rent }

/-- A Deposit payment of 1000 held for `exTenant`. -/
def exDeposit : Payment :=
  { id := "pay5", tenantId := some "t1", propertyId := "p1", amount := 1000,
    date := ⟨2024, 0, 1⟩, type := PaymentType.deposit }

/-- A past tenant whose lease ran 2024-01-05 to 2024-03-20. -/
def exPastTenant : Tenant :=
  { id := "t1", propertyId := "p1", name := "Alice", rentAmount := 10000,
    rentDueDay := 5, leaseStart := some ⟨2024, 0, 5⟩,
    leaseEnd := some ⟨2024, 2, 20⟩, status := TenantStatus.past }

/-- A tenant record whose `leaseStart` string does not parse to a date. -/
def exNoStartTenant : Tenant :=
  { id := "t1", propertyId := "p1", name := "Alice", rentAmount := 10000,
    rentDueDay := 5, leaseStart := none, leaseEnd := none,
    status := TenantStatus.active }

/-- The February 2024 installment of `exTenant`'s ledger under
`exClock` with `exPayment` applied: 5000 of the 15000 pool remains for
February after January's 10000. -/
def exInstFeb : RentInstallment :=
  { monthKey := monthKeyStr 2024 1, dueDate := ⟨2024, 1, 5⟩, amountDue := 10000,
    amountPaid := 5000, status := InstStatus.partPaid, tenantName := "Alice",
    propertyId := "p1" }

/-- The spec's scenario property: purchase price 1000000, down payment
200000, residential. -/
def exProperty : Property :=
  { id := "p1", type := PropertyType.residential, purchasePrice := 1000000,
    purchaseDate := ⟨2023, 0, 1⟩, downPayment := 200000,
    currentMarketValue := none }

/-- A personal-use property. -/
def exPersonalProperty : Property :=
  { id := "p2", type := PropertyType.personal, purchasePrice := 500000,
    purchaseDate := ⟨2023, 0, 1⟩, downPayment := 0,
    currentMarketValue := none }

/-- An Equity payment of 300000 toward `exProperty`. -/
def exEquityPay : Payment :=
  { id := "pay6", tenantId := none, propertyId := "p1", amount := 300000,
    date := ⟨2024, 0, 5⟩, type := PaymentType.equity }

/-- A further Equity payment of 100000 toward `exProperty`. -/
def exEquityPay2 : Payment :=
  { id := "pay7", tenantId := none, propertyId := "p1", amount := 100000,
    date := ⟨2024, 1, 5⟩, type := PaymentType.equity }

/-- A second active tenant, housed in the personal-use property. -/
def exTenant2 : Tenant :=
  { id := "t2", propertyId := "p2", name := "Bob", rentAmount := 8000,
    rentDueDay := 5, leaseStart := some ⟨2024, 0, 1⟩, leaseEnd := none,
    status := TenantStatus.active }

/-- Two equal lists agree at every common index. -/
theorem getElem_list_congr {α : Type} {l l' : List α} (h : l = l') {k : Nat}
    (hk : k < l.length) (hk' : k < l'.length) : l.get ⟨k, hk⟩ = l'.get ⟨k, hk'⟩ := by
  subst h
  rfl

/-- On a type whose `BEq` comes from decidable equality, `==` is
`decide` of the equality (lets `simp` evaluate enum comparisons). -/
theorem enum_beq_decide {α : Type} [DecidableEq α] (a b : α) :
    (a == b) = decide (a = b) := rfl

/-- Likewise for `!=`. -/
theorem enum_bne_decide {α : Type} [DecidableEq α] (a b : α) :
    (a != b) = !decide (a = b) := rfl

/-- Constructor disequalities used when evaluating the engine on
concrete records (as rewrite rules for `simp`). -/
theorem eqF_rent_deposit : (PaymentType.rent = PaymentType.deposit) = False :=
  eq_false (by decide)

/-- Symmetric direction of the previous fact. -/
theorem eqF_deposit_rent : (PaymentType.deposit = PaymentType.rent) = False :=
  eq_false (by decide)

/-- A residential property is not a personal-use one. -/
theorem eqF_res_personal : (PropertyType.residential = PropertyType.personal) = False :=
  eq_false (by decide)

/-- Status constructors are distinct: pending vs overdue. -/
theorem eqF_pending_overdue : (InstStatus.pending = InstStatus.overdue) = False :=
  eq_false (by decide)

/-- Status constructors are distinct: pending vs the partially paid
status. -/
theorem eqF_pending_partPaid : (InstStatus.pending = InstStatus.partPaid) = False :=
  eq_false (by decide)

/-- Status constructors are distinct: overdue vs the partially paid
status. -/
theorem eqF_overdue_partPaid : (InstStatus.overdue = InstStatus.partPaid) = False :=
  eq_false (by decide)

/-- Replacing `amountPaid` by its own value is the identity. -/
theorem update_paid_self (x : RentInstallment) :
    { x with amountPaid := x.amountPaid } = x := by
  cases x
  rfl

/-- A fold that adds a projection of each element is the sum of the
projected list. -/
theorem foldl_add_map {α : Type} (f : α → ℚ) (l : List α) :
    ∀ a : ℚ, l.foldl (fun s x => s + f x) a = a + (l.map f).sum := by
  induction l with
  | nil => intro a; simp
  | cons x l ih => intro a; simp [ih, add_assoc]

/-- The rent pool `rentTotal` as a plain list sum. -/
theorem rentTotal_eq_sum (t : Tenant) (ps : List Payment) :
    rentTotal t ps =
      ((ps.filter (fun p => p.tenantId == some t.id && p.type == PaymentType.rent)).map
        Payment.amount).sum := by
  rw [rentTotal, foldl_add_map]
  simp

/-- Nonnegative payment amounts give a nonnegative rent pool. -/
theorem rentTotal_nonneg (t : Tenant) (ps : List Payment)
    (h : ∀ p ∈ ps, 0 ≤ p.amount) : 0 ≤ rentTotal t ps := by
  rw [rentTotal_eq_sum]
  apply List.sum_nonneg
  intro x hx
  rw [List.mem_map] at hx
  obtain ⟨p, hp, rfl⟩ := hx
  exact h p (List.mem_of_mem_filter hp)

/-- Pool application does not change the length of the ledger. -/
theorem applyPool_length (pool : ℚ) (l : List RentInstallment) :
    (applyPool pool l).length = l.length := by
  induction l generalizing pool with
  | nil => rfl
  | cons i rest ih =>
    by_cases h : pool ≤ 0
    · simp [applyPool, h]
    · simp [applyPool, h, ih]

/-- Pool application keeps each `amountDue` and keeps each
`amountPaid` between 0 and the common `amountDue`. -/
theorem applyPool_mem {d : ℚ} (hd : 0 ≤ d) :
    ∀ (pool : ℚ) (l : List RentInstallment),
      (∀ i ∈ l, i.amountDue = d ∧ i.amountPaid = 0) →
      ∀ j ∈ applyPool pool l, j.amountDue = d ∧ 0 ≤ j.amountPaid ∧ j.amountPaid ≤ d := by
  intro pool l
  induction l generalizing pool with
  | nil => intro _ j hj; simp [applyPool] at hj
  | cons i rest ih =>
    intro hl j hj
    have hi := hl i (List.mem_cons_self i rest)
    by_cases h : pool ≤ 0
    · rw [applyPool, if_pos h] at hj
      rcases List.mem_cons.mp hj with rfl | hmem
      · exact ⟨hi.1, by rw [hi.2], by rw [hi.2]; exact hd⟩
      · have := hl j (List.mem_cons_of_mem i hmem)
        exact ⟨this.1, by rw [this.2], by rw [this.2]; exact hd⟩
    · rw [applyPool, if_neg h] at hj
      have hpos : 0 < pool := not_le.mp h
      rcases List.mem_cons.mp hj with rfl | hmem
      · refine ⟨hi.1, ?_, ?_⟩
        · rw [hi.2, zero_add, hi.1]
          exact le_min hd hpos.le
        · rw [hi.2, zero_add, hi.1]
          exact min_le_left d pool
      · exact ih (pool - min i.amountDue pool)
          (fun x hx => hl x (List.mem_cons_of_mem i hx)) j hmem

/-- Pool application does not change `amountDue` sums. -/
theorem applyPool_sumDue (pool : ℚ) (l : List RentInstallment) :
    sumDue (applyPool pool l) = sumDue l := by
  induction l generalizing pool with
  | nil => rfl
  | cons i rest ih =>
    by_cases h : pool ≤ 0
    · simp [applyPool, h]
    · simp [applyPool, h, sumDue] at ih ⊢
      exact ih (pool - min i.amountDue pool)

/-- Conservation at the level of the allocation loop: a nonnegative
pool applied to untouched nonnegative obligations allocates exactly
the smaller of the pool and the total obligation. -/
theorem applyPool_sumPaid :
    ∀ (pool : ℚ) (l : List RentInstallment), 0 ≤ pool →
      (∀ i ∈ l, 0 ≤ i.amountDue ∧ i.amountPaid = 0) →
      sumPaid (applyPool pool l) = min pool (sumDue l) := by
  intro pool l
  induction l generalizing pool with
  | nil =>
    intro hp _
    simp [applyPool, sumPaid, sumDue, min_eq_right hp]
  | cons i rest ih =>
    intro hp hl
    have hi := hl i (List.mem_cons_self i rest)
    have hrest : ∀ x ∈ rest, 0 ≤ x.amountDue ∧ x.amountPaid = 0 :=
      fun x hx => hl x (List.mem_cons_of_mem i hx)
    have hSdue : 0 ≤ (List.map RentInstallment.amountDue rest).sum := by
      apply List.sum_nonneg
      intro x hx
      rw [List.mem_map] at hx
      obtain ⟨y, hy, rfl⟩ := hx
      exact (hrest y hy).1
    by_cases h : pool ≤ 0
    · have hp0 : pool = 0 := le_antisymm h hp
      subst hp0
      rw [applyPool, if_pos le_rfl]
      have hz : sumPaid (i :: rest) = 0 := by
        apply List.sum_eq_zero
        intro x hx
        rw [List.mem_map] at hx
        obtain ⟨y, hy, rfl⟩ := hx
        exact (hl y hy).2
      rw [hz, eq_comm]
      apply min_eq_left
      simp [sumDue]
      linarith [hi.1]
    · have hpos : 0 < pool := not_le.mp h
      rw [applyPool, if_neg h]
      have hale : min i.amountDue pool ≤ pool := min_le_right _ _
      have ha0 : 0 ≤ min i.amountDue pool := le_min hi.1 hpos.le
      have hsum := ih (pool - min i.amountDue pool) (by linarith) hrest
      simp only [sumPaid, sumDue, List.map_cons, List.sum_cons] at hsum ⊢
      rw [hsum, hi.2, zero_add]
      have key : ∀ a S : ℚ, a + min (pool - a) S = min pool (a + S) := by
        intro a S
        rw [← min_add_add_left, add_sub_cancel]
      rw [key]
      rcases le_total i.amountDue pool with hle | hle
      · rw [min_eq_left hle]
      · rw [min_eq_right hle]
        rw [min_eq_left (by linarith), min_eq_left (by linarith)]

/-- Status derivation keeps `amountPaid`. -/
theorem setStatus_amountPaid (st : TenantStatus) (tm : ℚ) (x : RentInstallment) :
    (setStatus st tm x).amountPaid = x.amountPaid := by
  rw [setStatus]
  split
  · rfl
  · split
    · rfl
    · split <;> rfl

/-- Status derivation keeps `amountDue`. -/
theorem setStatus_amountDue (st : TenantStatus) (tm : ℚ) (x : RentInstallment) :
    (setStatus st tm x).amountDue = x.amountDue := by
  rw [setStatus]
  split
  · rfl
  · split
    · rfl
    · split <;> rfl

/-- Status derivation keeps `dueDate`. -/
theorem setStatus_dueDate (st : TenantStatus) (tm : ℚ) (x : RentInstallment) :
    (setStatus st tm x).dueDate = x.dueDate := by
  rw [setStatus]
  split
  · rfl
  · split
    · rfl
    · split <;> rfl

/-- The derived status as a function of the installment's own fields. -/
theorem setStatus_status (st : TenantStatus) (tm : ℚ) (x : RentInstallment) :
    (setStatus st tm x).status =
      (if x.amountDue ≤ x.amountPaid then InstStatus.paid
        else if 0 < x.amountPaid then InstStatus.partPaid
        else if timeOf x.dueDate < tm ∨ st = TenantStatus.past then InstStatus.overdue
        else InstStatus.pending) := by
  rw [setStatus]
  split
  · rfl
  · split
    · rfl
    · split <;> rfl

/-- An installment comes out of status derivation as `paid` exactly
when its `amountPaid` covers its `amountDue`. -/
theorem setStatus_paid_iff (st : TenantStatus) (tm : ℚ) (x : RentInstallment) :
    (setStatus st tm x).status = InstStatus.paid ↔ x.amountDue ≤ x.amountPaid := by
  rw [setStatus_status]
  split <;> rename_i h1
  · simp [h1]
  · split <;> rename_i h2
    · simp [h1]
    · split <;> simp [h1]

/-- Arithmetic step of the allocation formula: consuming
`min d pool` from the pool shifts the remaining-allocation clamp by
one installment of size `d`. -/
theorem pool_step (d pool : ℚ) (hd : 0 ≤ d) (n : Nat) :
    min d (max 0 (pool - min d pool - (n : ℚ) * d)) =
      min d (max 0 (pool - ((n : ℚ) + 1) * d)) := by
  rcases le_total d pool with hle | hle
  · rw [min_eq_left hle]
    congr 2
    ring
  · rw [min_eq_right hle]
    have hnd : 0 ≤ (n : ℚ) * d := mul_nonneg (Nat.cast_nonneg n) hd
    have hexp : ((n : ℚ) + 1) * d = (n : ℚ) * d + d := by ring
    have h1 : max 0 (pool - pool - (n : ℚ) * d) = 0 := max_eq_left (by linarith)
    have h2 : max 0 (pool - ((n : ℚ) + 1) * d) = 0 := max_eq_left (by linarith)
    rw [h1, h2]

/-- Closed form of the allocation loop: starting from untouched
installments of a common `amountDue` `d`, the installment at index `k`
receives exactly `min d (max 0 (pool - k * d))`, all other fields
unchanged. -/
theorem applyPool_get {d : ℚ} (hd : 0 ≤ d) :
    ∀ (pool : ℚ) (l : List RentInstallment),
      (∀ x ∈ l, x.amountDue = d ∧ x.amountPaid = 0) →
      ∀ (k : Nat) (hk : k < l.length) (hk2 : k < (applyPool pool l).length),
        (applyPool pool l).get ⟨k, hk2⟩ =
          { l.get ⟨k, hk⟩ with
              amountPaid := min d (max 0 (pool - (k : ℚ) * d)) } := by
  intro pool l
  induction l generalizing pool with
  | nil =>
    intro _ k hk _
    exact absurd hk (Nat.not_lt_zero k)
  | cons i rest ih =>
    intro hl k hk hk2
    have hi := hl i (List.mem_cons_self i rest)
    by_cases h : pool ≤ 0
    · have e : applyPool pool (i :: rest) = i :: rest := by
        rw [applyPool, if_pos h]
      have hzero : min d (max 0 (pool - (k : ℚ) * d)) = 0 := by
        have hkd : 0 ≤ (k : ℚ) * d := mul_nonneg (Nat.cast_nonneg k) hd
        rw [max_eq_left (by linarith), min_eq_right hd]
      have hk' : k < (i :: rest).length := hk
      rw [getElem_list_congr e hk2 hk', hzero]
      have hmem : (i :: rest).get ⟨k, hk'⟩ ∈ i :: rest := List.get_mem _ _ _
      rw [← (hl _ hmem).2, update_paid_self]
    · have hpos : 0 < pool := not_le.mp h
      have e : applyPool pool (i :: rest) =
          { i with amountPaid := i.amountPaid + min i.amountDue pool } ::
            applyPool (pool - min i.amountDue pool) rest := by
        rw [applyPool, if_neg h]
      cases k with
      | zero =>
        have hk' : 0 < ({ i with amountPaid := i.amountPaid + min i.amountDue pool } ::
            applyPool (pool - min i.amountDue pool) rest).length := by
          simp
        rw [getElem_list_congr e hk2 hk']
        show { i with amountPaid := i.amountPaid + min i.amountDue pool } =
          { (i :: rest).get ⟨0, hk⟩ with
              amountPaid := min d (max 0 (pool - ((0 : Nat) : ℚ) * d)) }
        have hget0 : (i :: rest).get ⟨0, hk⟩ = i := rfl
        rw [hget0, hi.2, zero_add, hi.1, Nat.cast_zero, zero_mul, sub_zero,
          max_eq_right hpos.le]
        simp [hi.1]
      | succ n =>
        have hn : n < rest.length := Nat.lt_of_succ_lt_succ hk
        have hn2 : n < (applyPool (pool - min i.amountDue pool) rest).length := by
          rw [applyPool_length]
          exact hn
        have hk' : n + 1 < ({ i with amountPaid := i.amountPaid + min i.amountDue pool } ::
            applyPool (pool - min i.amountDue pool) rest).length := by
          simpa [applyPool_length] using Nat.succ_lt_succ hn
        rw [getElem_list_congr e hk2 hk']
        have hrest : ∀ x ∈ rest, x.amountDue = d ∧ x.amountPaid = 0 :=
          fun x hx => hl x (List.mem_cons_of_mem i hx)
        have hih := ih (pool - min i.amountDue pool) hrest n hn hn2
        show (applyPool (pool - min i.amountDue pool) rest).get ⟨n, hn2⟩ =
          { (i :: rest).get ⟨n + 1, hk⟩ with
              amountPaid := min d (max 0 (pool - ((n + 1 : Nat) : ℚ) * d)) }
        rw [hih]
        have hgets : (i :: rest).get ⟨n + 1, hk⟩ = rest.get ⟨n, hn⟩ := rfl
        rw [hgets, hi.1, pool_step d pool hd n]
        push_cast
        simp

/-- Every skeleton installment owes the tenant's `rentAmount` and has
nothing paid yet. -/
theorem monthsOf_fields (clk : Clock) (t : Tenant) (s : Date) :
    ∀ x ∈ monthsOf clk t s, x.amountDue = t.rentAmount ∧ x.amountPaid = 0 := by
  intro x hx
  rw [monthsOf, List.mem_map] at hx
  obtain ⟨idx, _, rfl⟩ := hx
  exact ⟨rfl, rfl⟩

/-- The skeleton has one installment per month of the horizon. -/
theorem monthsOf_length (clk : Clock) (t : Tenant) (s : Date) :
    (monthsOf clk t s).length = horizonIdx clk t + 1 - monthIdx s := by
  simp [monthsOf]

/-- The chronological ledger of a tenant with an unparseable
`leaseStart` is empty. -/
theorem ledgerChron_none (clk : Clock) (t : Tenant) (ps : List Payment)
    (h : t.leaseStart = none) : ledgerChron clk t ps = [] := by
  rw [ledgerChron, h]

/-- The chronological ledger of a tenant with a parsed `leaseStart`:
skeleton, pool application, status derivation. -/
theorem ledgerChron_some (clk : Clock) (t : Tenant) (ps : List Payment) (s : Date)
    (h : t.leaseStart = some s) :
    ledgerChron clk t ps =
      (applyPool (rentTotal t ps) (monthsOf clk t s)).map (setStatus t.status clk.time) := by
  rw [ledgerChron, h]

/-- Reversing the returned ledger recovers the chronological one. -/
theorem generateLedger_reverse (clk : Clock) (t : Tenant) (ps : List Payment) :
    (generateLedger clk t ps).reverse = ledgerChron clk t ps := by
  rw [generateLedger, List.reverse_reverse]

/-- Sums of `amountPaid` ignore list reversal. -/
theorem sumPaid_reverse (l : List RentInstallment) :
    sumPaid l.reverse = sumPaid l := by
  rw [sumPaid, sumPaid, List.map_reverse, List.sum_reverse]

/-- Sums of `amountDue` ignore list reversal. -/
theorem sumDue_reverse (l : List RentInstallment) :
    sumDue l.reverse = sumDue l := by
  rw [sumDue, sumDue, List.map_reverse, List.sum_reverse]

/-- Status derivation does not change `sumPaid`. -/
theorem sumPaid_map_setStatus (st : TenantStatus) (tm : ℚ) (l : List RentInstallment) :
    sumPaid (l.map (setStatus st tm)) = sumPaid l := by
  rw [sumPaid, sumPaid, List.map_map]
  congr 1
  exact List.map_congr_left fun x _ => setStatus_amountPaid st tm x

/-- Status derivation does not change `sumDue`. -/
theorem sumDue_map_setStatus (st : TenantStatus) (tm : ℚ) (l : List RentInstallment) :
    sumDue (l.map (setStatus st tm)) = sumDue l := by
  rw [sumDue, sumDue, List.map_map]
  congr 1
  exact List.map_congr_left fun x _ => setStatus_amountDue st tm x

/-- Per-installment field invariants of the full pipeline: every
returned installment owes `rentAmount` and carries a payment between
0 and its obligation (for a tenant with nonnegative rent). -/
theorem generateLedger_mem_fields (clk : Clock) (t : Tenant) (ps : List Payment)
    (hra : 0 ≤ t.rentAmount) :
    ∀ inst ∈ generateLedger clk t ps,
      inst.amountDue = t.rentAmount ∧ 0 ≤ inst.amountPaid ∧
        inst.amountPaid ≤ inst.amountDue := by
  intro inst hmem
  rw [generateLedger, List.mem_reverse] at hmem
  cases hls : t.leaseStart with
  | none =>
    rw [ledgerChron_none clk t ps hls] at hmem
    exact absurd hmem (List.not_mem_nil inst)
  | some s =>
    rw [ledgerChron_some clk t ps s hls, List.mem_map] at hmem
    obtain ⟨x, hx, rfl⟩ := hmem
    have hf := applyPool_mem hra (rentTotal t ps) (monthsOf clk t s)
      (monthsOf_fields clk t s) x hx
    rw [setStatus_amountPaid, setStatus_amountDue]
    exact ⟨hf.1, hf.2.1, hf.1 ▸ hf.2.2⟩

/-- FIFO core: in a chronological pipeline output, an installment can
only be fully covered if every earlier installment is fully covered. -/
theorem fifo_core (st : TenantStatus) (tm : ℚ) {d : ℚ} (hd : 0 ≤ d)
    (pool : ℚ) (L : List RentInstallment)
    (hL : ∀ x ∈ L, x.amountDue = d ∧ x.amountPaid = 0)
    {i j : Nat} (hij : i < j)
    (hjL : j < L.length) (hiL : i < L.length)
    (hj2 : j < (applyPool pool L).length) (hi2 : i < (applyPool pool L).length)
    (hp : (setStatus st tm ((applyPool pool L).get ⟨j, hj2⟩)).status = InstStatus.paid) :
    ((applyPool pool L).get ⟨i, hi2⟩).amountPaid =
      ((applyPool pool L).get ⟨i, hi2⟩).amountDue := by
  rw [setStatus_paid_iff] at hp
  rw [applyPool_get hd pool L hL j hjL hj2] at hp
  rw [applyPool_get hd pool L hL i hiL hi2]
  have hdj : (L.get ⟨j, hjL⟩).amountDue = d := (hL _ (List.get_mem _ _ _)).1
  have hdi : (L.get ⟨i, hiL⟩).amountDue = d := (hL _ (List.get_mem _ _ _)).1
  simp only [hdj] at hp
  simp only [hdi]
  have hmaxj : d ≤ max 0 (pool - (j : ℚ) * d) := le_trans hp (min_le_right _ _)
  have hmono : max 0 (pool - (j : ℚ) * d) ≤ max 0 (pool - (i : ℚ) * d) := by
    apply max_le_max le_rfl
    have hji : (i : ℚ) * d ≤ (j : ℚ) * d :=
      mul_le_mul_of_nonneg_right (by exact_mod_cast hij.le) hd
    linarith
  exact min_eq_left (le_trans hmaxj hmono)

/-- C1 counterexample: for the past tenant whose lease ran 2024-01-05
to 2024-03-20, the claim predicts installments through April 2024
(the month after `leaseEnd`'s month), i.e. 4 of them; the engine
generates only 3 (January through March, `leaseEnd`'s own month). -/
theorem c1_counterexample :
    (generateLedger exClock exPastTenant []).length = 3 ∧
      (generateLedger exClock exPastTenant []).length ≠
        (monthIdx ⟨2024, 3, 1⟩ - monthIdx ⟨2024, 0, 1⟩) + 1 := by
  constructor
  · rw [generateLedger, List.length_reverse,
      ledgerChron_some exClock exPastTenant [] ⟨2024, 0, 5⟩ rfl, List.length_map,
      applyPool_length, monthsOf_length]
    norm_num [horizonIdx, monthIdx, exPastTenant, exClock]
  · rw [generateLedger, List.length_reverse,
      ledgerChron_some exClock exPastTenant [] ⟨2024, 0, 5⟩ rfl, List.length_map,
      applyPool_length, monthsOf_length]
    norm_num [horizonIdx, monthIdx, exPastTenant, exClock]

/-- C1 (amended): for a past tenant with a `leaseEnd`, the ledger runs
from the `leaseStart` month through `leaseEnd`'s own month inclusive;
for every other tenant, through the month following the current month
inclusive; the number of installments is the number of whole months
from the `leaseStart` month to that horizon month, inclusive, and zero
when the start month lies beyond the horizon. -/
theorem c1_ledger_completeness (clk : Clock) (t : Tenant) (ps : List Payment)
    (s : Date) (h : t.leaseStart = some s) :
    (generateLedger clk t ps).length =
      (match t.status, t.leaseEnd with
        | TenantStatus.past, some le => monthIdx le
        | _, _ => clk.year * 12 + clk.month + 1) + 1 - monthIdx s := by
  rw [generateLedger, List.length_reverse, ledgerChron_some clk t ps s h,
    List.length_map, applyPool_length, monthsOf_length, horizonIdx]

/-- C1 witness: the amended count theorem applied to the scenario
tenant (active, lease started January 2024) at the January 2024 clock:
two installments, January and February 2024. -/
theorem c1_ledger_completeness_witness :
    exTenant.leaseStart = some ⟨2024, 0, 1⟩ ∧
      (generateLedger exClock exTenant []).length =
        (match exTenant.status, exTenant.leaseEnd with
          | TenantStatus.past, some le => monthIdx le
          | _, _ => exClock.year * 12 + exClock.month + 1) + 1 - monthIdx ⟨2024, 0, 1⟩ :=
  ⟨rfl, c1_ledger_completeness exClock exTenant [] ⟨2024, 0, 1⟩ rfl⟩

/-- C7: the ledger depends on the payment list only through the total
of the tenant's Rent payments; two payment lists with the same rent
total produce identical ledgers. -/
theorem c7_pool_abstraction (clk : Clock) (t : Tenant) (ps ps2 : List Payment)
    (h : rentTotal t ps = rentTotal t ps2) :
    generateLedger clk t ps = generateLedger clk t ps2 := by
  rw [generateLedger, generateLedger]
  congr 1
  cases hls : t.leaseStart with
  | none => rw [ledgerChron_none clk t ps hls, ledgerChron_none clk t ps2 hls]
  | some s =>
    rw [ledgerChron_some clk t ps s hls, ledgerChron_some clk t ps2 s hls, h]

/-- C7 witness: a single Rent payment of 15000 and the same amount
split 9000 + 6000 across different dates yield identical ledgers. -/
theorem c7_pool_abstraction_witness :
    rentTotal exTenant [exPayment] = rentTotal exTenant [exPaySplitA, exPaySplitB] ∧
      generateLedger exClock exTenant [exPayment] =
        generateLedger exClock exTenant [exPaySplitA, exPaySplitB] := by
  have h : rentTotal exTenant [exPayment] =
      rentTotal exTenant [exPaySplitA, exPaySplitB] := by
    norm_num [rentTotal, exTenant, exPayment, exPaySplitA, exPaySplitB]
  exact ⟨h, c7_pool_abstraction exClock exTenant _ _ h⟩

/-- C8: the engine never signals any error condition; for a tenant
whose `leaseStart` does not parse to a usable date, `generateLedger`
silently returns the empty ledger for every payment list, instead of
surfacing the `InvalidInputError` the specification requires. -/
theorem c8_invalid_lease_start_silent :
    ∀ ps : List Payment, generateLedger exClock exNoStartTenant ps = [] := by
  intro ps
  rw [generateLedger, ledgerChron_none exClock exNoStartTenant ps rfl,
    List.reverse_nil]

/-- C9: every installment of a generated ledger satisfies
`0 ≤ amountPaid ≤ amountDue` (for a tenant with nonnegative rent, as
the data model requires). -/
theorem c9_paid_bounds (clk : Clock) (t : Tenant) (ps : List Payment)
    (hra : 0 ≤ t.rentAmount) :
    ∀ inst ∈ generateLedger clk t ps,
      0 ≤ inst.amountPaid ∧ inst.amountPaid ≤ inst.amountDue := by
  intro inst hmem
  have h := generateLedger_mem_fields clk t ps hra inst hmem
  exact ⟨h.2.1, h.2.2⟩

/-- C9 witness: the partially paid February 2024 installment of the
scenario ledger carries 5000 of its 10000 obligation. -/
theorem c9_paid_bounds_witness :
    0 ≤ exTenant.rentAmount ∧
      exInstFeb ∈ generateLedger exClock exTenant [exPayment] ∧
        (0 ≤ exInstFeb.amountPaid ∧ exInstFeb.amountPaid ≤ exInstFeb.amountDue) := by
  have hmem : exInstFeb ∈ generateLedger exClock exTenant [exPayment] := by
    norm_num [generateLedger, ledgerChron, monthsOf, horizonIdx, monthIdx,
      rentTotal, applyPool, mkInstallment, setStatus, timeOf, dayNumber,
      daysInMonth, isLeapYear, exClock, exTenant, exPayment, exInstFeb,
      List.range']
  exact ⟨by norm_num [exTenant], hmem,
    c9_paid_bounds exClock exTenant [exPayment] (by norm_num [exTenant])
      exInstFeb hmem⟩

/-- C2: conservation — the total allocated across the ledger is the
smaller of the tenant's Rent payment total and the total obligation
(for data-model-valid inputs: nonnegative rent and payment amounts). -/
theorem c2_conservation (clk : Clock) (t : Tenant) (ps : List Payment)
    (hra : 0 ≤ t.rentAmount) (hps : ∀ p ∈ ps, 0 ≤ p.amount) :
    sumPaid (generateLedger clk t ps) =
      min (rentTotal t ps) (sumDue (generateLedger clk t ps)) := by
  have hpool : 0 ≤ rentTotal t ps := rentTotal_nonneg t ps hps
  cases hls : t.leaseStart with
  | none =>
    rw [generateLedger, ledgerChron_none clk t ps hls]
    simp [sumPaid, sumDue, min_eq_right hpool]
  | some s =>
    rw [generateLedger, sumPaid_reverse, sumDue_reverse,
      ledgerChron_some clk t ps s hls, sumPaid_map_setStatus,
      sumDue_map_setStatus, applyPool_sumDue]
    apply applyPool_sumPaid (rentTotal t ps) (monthsOf clk t s) hpool
    intro x hx
    have hf := monthsOf_fields clk t s x hx
    exact ⟨hf.1.symm ▸ hra, hf.2⟩

/-- C2 witness: conservation at the scenario input — 15000 of rent
against two 10000 obligations allocates 15000 in total. -/
theorem c2_conservation_witness :
    0 ≤ exTenant.rentAmount ∧ (∀ p ∈ [exPayment], 0 ≤ p.amount) ∧
      sumPaid (generateLedger exClock exTenant [exPayment]) =
        min (rentTotal exTenant [exPayment])
          (sumDue (generateLedger exClock exTenant [exPayment])) :=
  ⟨by norm_num [exTenant], by norm_num [exPayment],
    c2_conservation exClock exTenant [exPayment] (by norm_num [exTenant])
      (by norm_num [exPayment])⟩

/-- C3: FIFO monotonicity — reading the returned ledger in
chronological order (its reverse), an installment can be `paid` only
when every chronologically earlier installment is fully covered. -/
theorem c3_fifo_monotone (clk : Clock) (t : Tenant) (ps : List Payment)
    (hra : 0 ≤ t.rentAmount) {i j : Nat} (hij : i < j)
    (hj : j < (generateLedger clk t ps).reverse.length)
    (hi : i < (generateLedger clk t ps).reverse.length)
    (hp : ((generateLedger clk t ps).reverse.get ⟨j, hj⟩).status = InstStatus.paid) :
    ((generateLedger clk t ps).reverse.get ⟨i, hi⟩).amountPaid =
      ((generateLedger clk t ps).reverse.get ⟨i, hi⟩).amountDue := by
  have e : (generateLedger clk t ps).reverse = ledgerChron clk t ps :=
    generateLedger_reverse clk t ps
  cases hls : t.leaseStart with
  | none =>
    exfalso
    have hj' : j < (ledgerChron clk t ps).length := e ▸ hj
    rw [ledgerChron_none clk t ps hls] at hj'
    exact absurd hj' (by simp)
  | some s =>
    have e2 : (generateLedger clk t ps).reverse =
        (applyPool (rentTotal t ps) (monthsOf clk t s)).map
          (setStatus t.status clk.time) :=
      e.trans (ledgerChron_some clk t ps s hls)
    have hjm : j < ((applyPool (rentTotal t ps) (monthsOf clk t s)).map
        (setStatus t.status clk.time)).length := e2 ▸ hj
    have him : i < ((applyPool (rentTotal t ps) (monthsOf clk t s)).map
        (setStatus t.status clk.time)).length := e2 ▸ hi
    have hj2 : j < (applyPool (rentTotal t ps) (monthsOf clk t s)).length := by
      simpa using hjm
    have hi2 : i < (applyPool (rentTotal t ps) (monthsOf clk t s)).length := by
      simpa using him
    have hjL : j < (monthsOf clk t s).length := by
      rwa [applyPool_length] at hj2
    have hiL : i < (monthsOf clk t s).length := by
      rwa [applyPool_length] at hi2
    have hmapj : ((applyPool (rentTotal t ps) (monthsOf clk t s)).map
        (setStatus t.status clk.time)).get ⟨j, hjm⟩ =
          setStatus t.status clk.time
            ((applyPool (rentTotal t ps) (monthsOf clk t s)).get ⟨j, hj2⟩) := by
      simp
    have hmapi : ((applyPool (rentTotal t ps) (monthsOf clk t s)).map
        (setStatus t.status clk.time)).get ⟨i, him⟩ =
          setStatus t.status clk.time
            ((applyPool (rentTotal t ps) (monthsOf clk t s)).get ⟨i, hi2⟩) := by
      simp
    have hp' : (setStatus t.status clk.time
        ((applyPool (rentTotal t ps) (monthsOf clk t s)).get ⟨j, hj2⟩)).status =
          InstStatus.paid := by
      rw [← hmapj, ← getElem_list_congr e2 hj hjm]
      exact hp
    rw [getElem_list_congr e2 hi him, hmapi, setStatus_amountPaid,
      setStatus_amountDue]
    exact fifo_core t.status clk.time hra (rentTotal t ps) (monthsOf clk t s)
      (monthsOf_fields clk t s) hij hjL hiL hj2 hi2 hp'

/-- C3 witness: with a 20000 Rent pool covering both 10000
installments, the chronologically later (February) installment is
`paid`, and the theorem yields that January is fully covered. -/
theorem c3_fifo_monotone_witness :
    0 ≤ exTenant.rentAmount ∧ 0 < 1 ∧
      (((generateLedger exClock exTenant [exPayFull]).reverse.get
        ⟨1, by
          rw [List.length_reverse, generateLedger, List.length_reverse,
            ledgerChron_some exClock exTenant [exPayFull] ⟨2024, 0, 1⟩ rfl,
            List.length_map, applyPool_length, monthsOf_length]
          norm_num [horizonIdx, monthIdx, exTenant, exClock]⟩).status =
        InstStatus.paid) ∧
      ((generateLedger exClock exTenant [exPayFull]).reverse.get
        ⟨0, by
          rw [List.length_reverse, generateLedger, List.length_reverse,
            ledgerChron_some exClock exTenant [exPayFull] ⟨2024, 0, 1⟩ rfl,
            List.length_map, applyPool_length, monthsOf_length]
          norm_num [horizonIdx, monthIdx, exTenant, exClock]⟩).amountPaid =
      ((generateLedger exClock exTenant [exPayFull]).reverse.get
        ⟨0, by
          rw [List.length_reverse, generateLedger, List.length_reverse,
            ledgerChron_some exClock exTenant [exPayFull] ⟨2024, 0, 1⟩ rfl,
            List.length_map, applyPool_length, monthsOf_length]
          norm_num [horizonIdx, monthIdx, exTenant, exClock]⟩).amountDue := by
  have hpaid : ((generateLedger exClock exTenant [exPayFull]).reverse.get
      ⟨1, by
        rw [List.length_reverse, generateLedger, List.length_reverse,
          ledgerChron_some exClock exTenant [exPayFull] ⟨2024, 0, 1⟩ rfl,
          List.length_map, applyPool_length, monthsOf_length]
        norm_num [horizonIdx, monthIdx, exTenant, exClock]⟩).status =
      InstStatus.paid := by
    norm_num [generateLedger, ledgerChron, monthsOf, horizonIdx, monthIdx,
      rentTotal, applyPool, mkInstallment, setStatus, timeOf, dayNumber,
      daysInMonth, isLeapYear, exClock, exTenant, exPayFull, List.range']
  exact ⟨by norm_num [exTenant], by norm_num,
    hpaid, c3_fifo_monotone exClock exTenant [exPayFull]
      (by norm_num [exTenant]) (by norm_num) _ _ hpaid⟩

/-- C4: each returned installment's status follows the derivation
cascade (paid when covered, else partial when anything is paid, else
overdue when the due date has passed or the tenant is past, else
pending); in particular a zero-rent tenant's installments are all
`paid`. -/
theorem c4_status_rule (clk : Clock) (t : Tenant) (ps : List Payment) :
    (∀ inst ∈ generateLedger clk t ps,
      inst.status =
        (if inst.amountDue ≤ inst.amountPaid then InstStatus.paid
          else if 0 < inst.amountPaid then InstStatus.partPaid
          else if timeOf inst.dueDate < clk.time ∨ t.status = TenantStatus.past then
            InstStatus.overdue
          else InstStatus.pending)) ∧
      (t.rentAmount = 0 →
        ∀ inst ∈ generateLedger clk t ps, inst.status = InstStatus.paid) := by
  have hrule : ∀ inst ∈ generateLedger clk t ps,
      inst.status =
        (if inst.amountDue ≤ inst.amountPaid then InstStatus.paid
          else if 0 < inst.amountPaid then InstStatus.partPaid
          else if timeOf inst.dueDate < clk.time ∨ t.status = TenantStatus.past then
            InstStatus.overdue
          else InstStatus.pending) := by
    intro inst hmem
    rw [generateLedger, List.mem_reverse] at hmem
    cases hls : t.leaseStart with
    | none =>
      rw [ledgerChron_none clk t ps hls] at hmem
      exact absurd hmem (List.not_mem_nil inst)
    | some s =>
      rw [ledgerChron_some clk t ps s hls, List.mem_map] at hmem
      obtain ⟨x, _, rfl⟩ := hmem
      rw [setStatus_amountPaid, setStatus_amountDue, setStatus_dueDate]
      exact setStatus_status t.status clk.time x
  refine ⟨hrule, ?_⟩
  intro h0 inst hmem
  have hf := generateLedger_mem_fields clk t ps h0.ge inst hmem
  rw [hrule inst hmem, if_pos (by rw [hf.1, h0]; exact hf.2.1)]

/-- C4 witness: the February 2024 installment of the scenario ledger
(5000 paid of 10000) gets status `partial` by the cascade. -/
theorem c4_status_rule_witness :
    exInstFeb ∈ generateLedger exClock exTenant [exPayment] ∧
      exInstFeb.status =
        (if exInstFeb.amountDue ≤ exInstFeb.amountPaid then InstStatus.paid
          else if 0 < exInstFeb.amountPaid then InstStatus.partPaid
          else if timeOf exInstFeb.dueDate < exClock.time ∨
              exTenant.status = TenantStatus.past then InstStatus.overdue
          else InstStatus.pending) := by
  have hmem : exInstFeb ∈ generateLedger exClock exTenant [exPayment] := by
    norm_num [generateLedger, ledgerChron, monthsOf, horizonIdx, monthIdx,
      rentTotal, applyPool, mkInstallment, setStatus, timeOf, dayNumber,
      daysInMonth, isLeapYear, exClock, exTenant, exPayment, exInstFeb,
      List.range']
  exact ⟨hmem, (c4_status_rule exClock exTenant [exPayment]).1 exInstFeb hmem⟩

/-- C5: move-out settlement — `depositHeld` is the tenant's Deposit
total, `unpaidRent` the per-installment shortfall total
`max 0 (amountDue - amountPaid)` (the engine's raw sum agrees because
no installment is ever overpaid), and `netRefundable` their
difference. -/
theorem c5_move_out (clk : Clock) (t : Tenant) (ps : List Payment)
    (hra : 0 ≤ t.rentAmount) :
    (calculateMoveOutFinancials clk t ps).depositHeld =
        ((ps.filter (fun p => p.tenantId == some t.id &&
          p.type == PaymentType.deposit)).map Payment.amount).sum ∧
      (calculateMoveOutFinancials clk t ps).unpaidRent =
        ((generateLedger clk t ps).map
          (fun r => max 0 (r.amountDue - r.amountPaid))).sum ∧
      (calculateMoveOutFinancials clk t ps).netRefundable =
        (calculateMoveOutFinancials clk t ps).depositHeld -
          (calculateMoveOutFinancials clk t ps).unpaidRent := by
  refine ⟨?_, ?_, rfl⟩
  · show (ps.filter (fun p => p.tenantId == some t.id &&
        p.type == PaymentType.deposit)).foldl (fun s p => s + p.amount) 0 = _
    rw [foldl_add_map, zero_add]
  · show (generateLedger clk t ps).foldl
        (fun s row => s + (row.amountDue - row.amountPaid)) 0 = _
    rw [foldl_add_map (fun row : RentInstallment => row.amountDue - row.amountPaid),
      zero_add]
    congr 1
    apply List.map_congr_left
    intro r hr
    have hf := generateLedger_mem_fields clk t ps hra r hr
    exact (max_eq_right (sub_nonneg.mpr hf.2.2)).symm

/-- C5 witness: deposit 1000 against a 5000 shortfall gives a negative
`netRefundable` of -4000. -/
theorem c5_move_out_witness :
    0 ≤ exTenant.rentAmount ∧
      ((calculateMoveOutFinancials exClock exTenant [exPayment, exDeposit]).depositHeld =
          (([exPayment, exDeposit].filter (fun p => p.tenantId == some exTenant.id &&
            p.type == PaymentType.deposit)).map Payment.amount).sum ∧
        (calculateMoveOutFinancials exClock exTenant [exPayment, exDeposit]).unpaidRent =
          ((generateLedger exClock exTenant [exPayment, exDeposit]).map
            (fun r => max 0 (r.amountDue - r.amountPaid))).sum ∧
        (calculateMoveOutFinancials exClock exTenant [exPayment, exDeposit]).netRefundable =
          (calculateMoveOutFinancials exClock exTenant [exPayment, exDeposit]).depositHeld -
            (calculateMoveOutFinancials exClock exTenant [exPayment, exDeposit]).unpaidRent) ∧
      (calculateMoveOutFinancials exClock exTenant [exPayment, exDeposit]).netRefundable < 0 := by
  refine ⟨by norm_num [exTenant],
    c5_move_out exClock exTenant [exPayment, exDeposit] (by norm_num [exTenant]), ?_⟩
  norm_num [calculateMoveOutFinancials, generateLedger, ledgerChron, monthsOf,
    horizonIdx, monthIdx, rentTotal, applyPool, mkInstallment, setStatus,
    timeOf, dayNumber, daysInMonth, isLeapYear, exClock, exTenant, exPayment,
    exDeposit, List.range', beq_iff_eq, enum_beq_decide, enum_bne_decide,
    List.filter_cons, List.foldl_cons, List.foldr_cons,
    eqF_rent_deposit, eqF_deposit_rent]

/-- C6: `percentPaid` equals `min 100 (totalEquityPaid / purchasePrice
* 100)` for a positive purchase price and 0 otherwise; it is
non-decreasing in `totalEquityPaid` with everything else fixed, and
never exceeds 100. -/
theorem c6_percent_paid (clk : Clock) (prop : Property) (ps ps2 : List Payment) :
    ((calculatePropertyFinancials clk prop ps).percentPaid =
        (if 0 < prop.purchasePrice then
          min 100 ((calculatePropertyFinancials clk prop ps).totalEquityPaid /
            prop.purchasePrice * 100)
        else 0)) ∧
      ((calculatePropertyFinancials clk prop ps).totalEquityPaid ≤
          (calculatePropertyFinancials clk prop ps2).totalEquityPaid →
        (calculatePropertyFinancials clk prop ps).percentPaid ≤
          (calculatePropertyFinancials clk prop ps2).percentPaid) ∧
      (calculatePropertyFinancials clk prop ps).percentPaid ≤ 100 := by
  have hTEP : ∀ qs : List Payment,
      (calculatePropertyFinancials clk prop qs).totalEquityPaid =
        prop.downPayment + equityTotal prop qs := fun qs => rfl
  have hPP : ∀ qs : List Payment,
      (calculatePropertyFinancials clk prop qs).percentPaid =
        min 100 (if 0 < prop.purchasePrice then
          (prop.downPayment + equityTotal prop qs) / prop.purchasePrice * 100
        else 0) := fun qs => rfl
  refine ⟨?_, ?_, ?_⟩
  · rw [hPP ps, hTEP ps]
    by_cases hp : 0 < prop.purchasePrice
    · rw [if_pos hp, if_pos hp]
    · rw [if_neg hp, if_neg hp, min_eq_right (by norm_num : (0 : ℚ) ≤ 100)]
  · intro h
    rw [hTEP ps, hTEP ps2] at h
    rw [hPP ps, hPP ps2]
    by_cases hp : 0 < prop.purchasePrice
    · rw [if_pos hp, if_pos hp]
      gcongr
    · rw [if_neg hp, if_neg hp]
  · rw [hPP ps]
    exact min_le_left 100 _

/-- C6 witness: equity 500000 vs 600000 over a price of 1000000 gives
percent paid 50 ≤ 60. -/
theorem c6_percent_paid_witness :
    (calculatePropertyFinancials exClock exProperty [exEquityPay]).totalEquityPaid ≤
        (calculatePropertyFinancials exClock exProperty
          [exEquityPay, exEquityPay2]).totalEquityPaid ∧
      (calculatePropertyFinancials exClock exProperty [exEquityPay]).percentPaid ≤
        (calculatePropertyFinancials exClock exProperty
          [exEquityPay, exEquityPay2]).percentPaid := by
  have h : (calculatePropertyFinancials exClock exProperty [exEquityPay]).totalEquityPaid ≤
      (calculatePropertyFinancials exClock exProperty
        [exEquityPay, exEquityPay2]).totalEquityPaid := by
    show exProperty.downPayment + equityTotal exProperty [exEquityPay] ≤
      exProperty.downPayment + equityTotal exProperty [exEquityPay, exEquityPay2]
    norm_num [equityTotal, exProperty, exEquityPay, exEquityPay2]
  exact ⟨h, (c6_percent_paid exClock exProperty [exEquityPay]
    [exEquityPay, exEquityPay2]).2.1 h⟩

/-- C10: the occupancy rate is not capped at 100 — with one rental and
one personal-use property and two active tenants, the numerator counts
both tenants (including the one housed in the personal-use property)
against the single rental property, giving 200. -/
theorem c10_occupancy_uncapped :
    ([exTenant, exTenant2].filter
        (fun t => t.status == TenantStatus.active)).length = 2 ∧
      ([exProperty, exPersonalProperty].filter
        (fun p => p.type != PropertyType.personal)).length = 1 ∧
      (calculateMetrics exClock [exProperty, exPersonalProperty]
        [exTenant, exTenant2] []).occupancyRate = 200 ∧
      (100 : ℚ) < (calculateMetrics exClock [exProperty, exPersonalProperty]
        [exTenant, exTenant2] []).occupancyRate := by
  refine ⟨?_, ?_, ?_, ?_⟩
  · norm_num [exTenant, exTenant2]
  · norm_num [exProperty, exPersonalProperty, enum_bne_decide, List.filter_cons,
      eqF_res_personal]
  · norm_num [calculateMetrics, generateLedger, ledgerChron, monthsOf,
      horizonIdx, monthIdx, rentTotal, applyPool, mkInstallment, setStatus,
      timeOf, dayNumber, daysInMonth, isLeapYear, exClock, exTenant, exTenant2,
      exProperty, exPersonalProperty, List.range', enum_beq_decide, enum_bne_decide,
      List.filter_cons, List.foldl_cons, List.foldr_cons, eqF_res_personal,
      eqF_rent_deposit, eqF_deposit_rent, eqF_pending_overdue,
      eqF_pending_partPaid, eqF_overdue_partPaid]
  · norm_num [calculateMetrics, generateLedger, ledgerChron, monthsOf,
      horizonIdx, monthIdx, rentTotal, applyPool, mkInstallment, setStatus,
      timeOf, dayNumber, daysInMonth, isLeapYear, exClock, exTenant, exTenant2,
      exProperty, exPersonalProperty, List.range', enum_beq_decide, enum_bne_decide,
      List.filter_cons, List.foldl_cons, List.foldr_cons, eqF_res_personal,
      eqF_rent_deposit, eqF_deposit_rent, eqF_pending_overdue,
      eqF_pending_partPaid, eqF_overdue_partPaid]

end PropLedger
